import Mathlib

/-!
Verification of the `freq_app` fraud-scoring core.

The development shallowly embeds the Python sources of the repository:

* `src/freq_app/utils/math_utils.py` — `sigmoid`;
* `src/freq_app/model/weights.py` — `logit`, `train_and_save_weights`;
* `src/freq_app/model/model_builder.py` — `FraudBN.build_fraud_cpd`,
  `FraudBN.assemble`, `FraudBN.score_case`;
* `src/freq_app/model/priors.py` — the priors data consumed by the above.

Python floats are modelled as real numbers; Python exceptions are modelled
by the `PyErr` type and `Except`-valued functions.  Where the program
delegates to the third-party `pgmpy` library (CPD shape validation,
`check_model`, `VariableElimination`), whose code is not part of this
repository, the delegated behaviour is modelled from the specification's
contract; those definitions say so in their doc comments.
-/

namespace FreqApp

/-- Exceptions raised by the embedded Python code.  `keyError` is Python's
`KeyError` (a subclass of `LookupError`), raised by a failing dict subscript.
`valueError` is Python's `ValueError`; `math.log` raises it with the message
"math domain error" when its argument is not positive, so for the weight
functions it plays the role of the spec's `DomainError`.  `zeroDivisionError`
is raised by float division by zero (the `p = 1` logit boundary).
`overflowError` is raised by `math.exp` when the true result exceeds the
largest double.  `invalidEvidenceError` abstracts the per-query evidence
validation failure of the inference engine (spec taxonomy
`InvalidEvidenceError`). -/
inductive PyErr
  | keyError
  | valueError
  | zeroDivisionError
  | overflowError
  | invalidEvidenceError
  | modelInconsistencyError
  deriving DecidableEq, Repr

noncomputable section

/-- Embedding of `math_utils.sigmoid`: `1.0 / (1.0 + math.exp(-input_val))`,
read over the reals (the float-overflow refinement is `sigmoidPy` below). -/
def sigmoid (input_val : ℝ) : ℝ := 1 / (1 + Real.exp (-input_val))

/-- The mathematical log-odds `ln (p / (1 - p))` computed by `weights.logit`
on its non-exceptional domain. -/
def logitR (p : ℝ) : ℝ := Real.log (p / (1 - p))

/-- Embedding of `weights.logit`.  The function "validates" its input only by
writing a log line and then evaluates `math.log(p / (1 - p))` regardless:
for `p = 1` the division raises `ZeroDivisionError`, and for any other
`p` outside `(0, 1)` the ratio is `≤ 0`, so `math.log` raises
`ValueError` ("math domain error").  No out-of-range input produces a
value. -/
def logitPy (p : ℝ) : Except PyErr ℝ :=
  if p = 1 then .error .zeroDivisionError
  else if p / (1 - p) ≤ 0 then .error .valueError
  else .ok (Real.log (p / (1 - p)))

/-- Threshold above which `math.exp` overflows: any true value strictly above
`2^1024` is beyond every finite IEEE-754 double, so Python's `math.exp`
raises `OverflowError` there. -/
def floatMax : ℝ := 2 ^ (1024 : ℕ)

/-- Embedding of Python's `math.exp` including its overflow behaviour. -/
def expPy (x : ℝ) : Except PyErr ℝ :=
  if floatMax < Real.exp x then .error .overflowError else .ok (Real.exp x)

/-- Embedding of `math_utils.sigmoid` with Python float semantics for
`math.exp`: `1.0 / (1.0 + math.exp(-input_val))` raises `OverflowError`
for large-magnitude negative inputs. -/
def sigmoidPy (input_val : ℝ) : Except PyErr ℝ :=
  match expPy (-input_val) with
  | .error e => .error e
  | .ok v => .ok (1 / (1 + v))

/-- The inner loop of `weights.train_and_save_weights`: for one feature,
`weights[f"{feature}:{state}"] = logit(probability) - bias` over its state
map. -/
def derivePairs (feature : String) (b : ℝ) :
    List (String × ℝ) → Except PyErr (List (String × ℝ))
  | [] => .ok []
  | (state, probability) :: rest => do
    let l ← logitPy probability
    let tail ← derivePairs feature b rest
    pure ((feature ++ ":" ++ state, l - b) :: tail)

/-- The outer loop of `weights.train_and_save_weights` over the
`raw_probs` mapping (feature → state → probability). -/
def deriveAll (b : ℝ) :
    List (String × List (String × ℝ)) → Except PyErr (List (String × ℝ))
  | [] => .ok []
  | (feature, states) :: rest => do
    let head ← derivePairs feature b states
    let tail ← deriveAll b rest
    pure (head ++ tail)

/-- Embedding of `weights.train_and_save_weights`: compute
`bias = logit(base_fraud_rate)`, then the per-state weights
`logit(probability) - bias`.  File I/O (loading `raw_probs.json`, writing
`weights.json`) is out of scope; the raw mapping and base rate are
parameters. -/
def trainAndSaveWeights (raw : List (String × List (String × ℝ))) (baseRate : ℝ) :
    Except PyErr (ℝ × List (String × ℝ)) := do
  let b ← logitPy baseRate
  let ws ← deriveAll b raw
  pure (b, ws)

/-- The weight list `train_and_save_weights` produces on all-valid input,
written with the mathematical `logitR`. -/
def deriveSpecList (raw : List (String × List (String × ℝ))) (b : ℝ) :
    List (String × ℝ) :=
  raw.flatMap fun pr => pr.2.map fun sp => (pr.1 ++ ":" ++ sp.1, logitR sp.2 - b)

/-- One entry of `priors.json`: an ordered state list and the prior
probabilities aligned positionally with it. -/
structure PriorSpec where
  states : List String
  values : List ℝ

/-- The priors mapping as `build_fraud_cpd` reads it: one `PriorSpec` per
evidence variable, accessed by name. -/
structure PriorsData where
  porting : PriorSpec
  darkWeb : PriorSpec
  stateMatch : PriorSpec
  proxyFlag : PriorSpec
  maid : PriorSpec

/-- One parent-state tuple `(p_state, d_state, s_state, x_state, m_state)`. -/
abbrev Tup := String × String × String × String × String

/-- Default tuple, used only as the default of positional lookups. -/
def tupDflt : Tup := ("", "", "", "", "")

/-- The enumeration order of `itertools.product(porting_states,
darkweb_states, statematch_states, proxy_states, maid_states)`: parents in
declared order, the last coordinate varying fastest. -/
def allTuples (pd : PriorsData) : List Tup :=
  pd.porting.states.flatMap fun p =>
    pd.darkWeb.states.flatMap fun d =>
      pd.stateMatch.states.flatMap fun s =>
        pd.proxyFlag.states.flatMap fun x =>
          pd.maid.states.map fun m => (p, d, s, x, m)

/-- The five `WEIGHTS[f"{var}:{state}"]` dict subscripts of one loop
iteration of `build_fraud_cpd`, summed.  A dict is modelled as a partial map
`String → Option ℝ`; any missing key makes the iteration raise `KeyError`,
so the sum is `none` exactly when some key is absent. -/
def wsum (W : String → Option ℝ) (t : Tup) : Option ℝ :=
  match W ("Porting:" ++ t.1), W ("DarkWeb:" ++ t.2.1),
      W ("StateMatch:" ++ t.2.2.1), W ("ProxyFlag:" ++ t.2.2.2.1),
      W ("MAID_NightDistance:" ++ t.2.2.2.2) with
  | some w₁, some w₂, some w₃, some w₄, some w₅ => some (w₁ + w₂ + w₃ + w₄ + w₅)
  | _, _, _, _, _ => none

/-- One `p_fraud_yes` entry of `build_fraud_cpd`:
`sigmoid(bias + sum of the five state weights)`, `none` on a missing key. -/
def rowP (W : String → Option ℝ) (b : ℝ) (t : Tup) : Option ℝ :=
  (wsum W t).map fun s => sigmoid (b + s)

/-- Option-valued map over a list, stopping at the first failure — the
behaviour of a Python `for` loop whose body can raise. -/
def mapOpt (f : α → Option β) : List α → Option (List β)
  | [] => some []
  | a :: l =>
    match f a with
    | none => none
    | some b => (mapOpt f l).map (b :: ·)

/-- Every `f"{var}:{state}"` key the schema requires of the weights dict. -/
def requiredKeys (pd : PriorsData) : List String :=
  pd.porting.states.map ("Porting:" ++ ·) ++
    pd.darkWeb.states.map ("DarkWeb:" ++ ·) ++
      pd.stateMatch.states.map ("StateMatch:" ++ ·) ++
        pd.proxyFlag.states.map ("ProxyFlag:" ++ ·) ++
          pd.maid.states.map ("MAID_NightDistance:" ++ ·)

/-- The cardinality validation performed by pgmpy's `TabularCPD` constructor
(third-party code, modelled from its documented contract): `build_fraud_cpd`
hardcodes `evidence_card=[3, 4, 2, 2, 4]`, and the constructor requires the
`values` row length to equal the product of `evidence_card` and each
`state_names` list's length to equal the corresponding cardinality, so
construction succeeds exactly when the five declared state lists have
lengths 3, 4, 2, 2 and 4. -/
def cardsOk (pd : PriorsData) : Bool :=
  pd.porting.states.length == 3 && pd.darkWeb.states.length == 4 &&
    pd.stateMatch.states.length == 2 && pd.proxyFlag.states.length == 2 &&
      pd.maid.states.length == 4

/-- The target CPT as `build_fraud_cpd` returns it: the `p_fraud_yes` row
and the `1.0 - prob` row, columns aligned with `allTuples`. -/
structure Cpd where
  pYes : List ℝ
  pNo : List ℝ

/-- Embedding of `FraudBN.build_fraud_cpd`: enumerate the cartesian product
of the five declared state lists, compute `sigmoid(bias + Σ weights)` per
tuple (a missing `"feature:state"` key raises `KeyError`), then construct
the `TabularCPD` with `evidence_card=[3, 4, 2, 2, 4]` (whose validation is
`cardsOk`). -/
def buildFraudCpd (pd : PriorsData) (W : String → Option ℝ) (b : ℝ) :
    Except PyErr Cpd :=
  match mapOpt (rowP W b) (allTuples pd) with
  | none => .error .keyError
  | some ys => if cardsOk pd then .ok ⟨ys, ys.map (1 - ·)⟩ else .error .valueError

/-- An evidence mapping, the `Dict[str, str]` argument of `score_case`. -/
abbrev Evidence := List (String × String)

/-- Dict lookup on an evidence mapping. -/
def lookupEv : Evidence → String → Option String
  | [], _ => none
  | (k, v) :: rest, name => if k = name then some v else lookupEv rest name

/-- The five evidence variables of the fixed network structure, in the
order `FraudBN.__init__` declares the edges. -/
def varNames : List String :=
  ["Porting", "DarkWeb", "StateMatch", "ProxyFlag", "MAID_NightDistance"]

/-- The declared state list of an evidence variable. -/
def statesOf (pd : PriorsData) (name : String) : List String :=
  if name = "Porting" then pd.porting.states
  else if name = "DarkWeb" then pd.darkWeb.states
  else if name = "StateMatch" then pd.stateMatch.states
  else if name = "ProxyFlag" then pd.proxyFlag.states
  else if name = "MAID_NightDistance" then pd.maid.states
  else []

/-- Validity of an evidence mapping: every entry names a network variable
and one of its declared states.  The inference engine rejects anything
else. -/
def evidenceValidP (pd : PriorsData) (ev : Evidence) : Prop :=
  ∀ p ∈ ev, p.1 ∈ varNames ∧ p.2 ∈ statesOf pd p.1

instance (pd : PriorsData) (ev : Evidence) : Decidable (evidenceValidP pd ev) :=
  List.decidableBAll _ ev

/-- Modelled from the spec: the factor one evidence variable contributes to
the star-shaped elimination (§4.4).  An observed variable is reduced to its
observed state with weight 1; an unobserved variable is marginalized using
its prior CPT as a weighting distribution, i.e. each declared state paired
with its prior probability. -/
def branch (ev : Evidence) (name : String) (ps : PriorSpec) : List (ℝ × String) :=
  match lookupEv ev name with
  | some s => [(1, s)]
  | none => ps.values.zip ps.states

/-- Modelled from the spec: all parent configurations the elimination sums
over, each with its prior weight (product over unobserved parents). -/
def configs (pd : PriorsData) (ev : Evidence) : List (ℝ × Tup) :=
  (branch ev "Porting" pd.porting).flatMap fun a =>
    (branch ev "DarkWeb" pd.darkWeb).flatMap fun b =>
      (branch ev "StateMatch" pd.stateMatch).flatMap fun c =>
        (branch ev "ProxyFlag" pd.proxyFlag).flatMap fun d =>
          (branch ev "MAID_NightDistance" pd.maid).map fun e =>
            (a.1 * b.1 * c.1 * d.1 * e.1, (a.2, b.2, c.2, d.2, e.2))

/-- Modelled from the spec: `FraudBN.score_case`.  The repository delegates
the query to pgmpy's `VariableElimination` (third-party code); the spec
(§4.4) fixes its contract — validate the evidence (`InvalidEvidenceError`
on an unknown variable or out-of-domain state), reduce and multiply the
factors, sum out the unobserved parents, normalize over the target's two
states and return `{"Fraud": p, "Legit": 1 - p}`.  The target CPT column
for a parent tuple is `sigmoid(bias + Σ weights)` exactly as
`build_fraud_cpd` lays it out. -/
def scoreCase (pd : PriorsData) (W : String → Option ℝ) (b : ℝ) (ev : Evidence) :
    Except PyErr (ℝ × ℝ) :=
  if evidenceValidP pd ev then
    match mapOpt (fun pt => (rowP W b pt.2).map fun p => (pt.1, p)) (configs pd ev) with
    | none => .error .keyError
    | some rows =>
      let den := (rows.map Prod.fst).sum
      let num := (rows.map fun r => r.1 * r.2).sum
      .ok (num / den, 1 - num / den)
  else .error .invalidEvidenceError

/-- A conditional probability table of the assembled network, as the
validation contract sees it: its variable, its parent list, and its columns
(one distribution over the variable's states per parent configuration). -/
structure CptM where
  var : String
  parents : List String
  cols : List (List ℝ)

/-- The assembled network as the validation contract sees it. -/
structure NetworkModel where
  vars : List String
  edges : List (String × String)
  cpts : List CptM

/-- Check 1 of `validate`: every variable has exactly one CPT. -/
def uniqueCpd (n : NetworkModel) : Prop :=
  ∀ v ∈ n.vars, (n.cpts.filter fun c => c.var == v).length = 1

/-- Check 2 of `validate`: each CPT's parent list matches the declared
incoming edges of its variable, in declared edge order. -/
def parentsMatch (n : NetworkModel) : Prop :=
  ∀ c ∈ n.cpts, c.parents = (n.edges.filter fun e => e.2 == c.var).map Prod.fst

/-- Check 3 of `validate`: every CPT column sums to 1 within tolerance. -/
def normalizedCpts (n : NetworkModel) : Prop :=
  ∀ c ∈ n.cpts, ∀ col ∈ c.cols, |col.sum - 1| ≤ 1e-8

/-- Check 4 of `validate`: the edge set is acyclic, witnessed by a
topological order. -/
def acyclicEdges (n : NetworkModel) : Prop :=
  ∃ ord : List String, ∀ e ∈ n.edges, ord.indexOf e.1 < ord.indexOf e.2

/-- The specific validation check a `ModelInconsistencyError` reports. -/
inductive ModelFault
  | duplicateOrMissingCpd
  | parentMismatch
  | unnormalizedCpt
  | cyclicEdges
  deriving DecidableEq, Repr

open Classical in
/-- Modelled from the spec: the validation `FraudBN.assemble` runs on the
assembled network.  The repository delegates it to pgmpy's `check_model`
(third-party code) behind `assert self.model.check_model()`; the spec
(§4.3) fixes the contract — check exactly one CPT per variable, CPT parent
lists against declared edges, per-column normalization within tolerance and
acyclicity, and fail with `ModelInconsistencyError` naming the violated
check, never repairing the model. -/
def validate (n : NetworkModel) : Except ModelFault Unit :=
  if ¬ uniqueCpd n then .error .duplicateOrMissingCpd
  else if ¬ parentsMatch n then .error .parentMismatch
  else if ¬ normalizedCpts n then .error .unnormalizedCpt
  else if ¬ acyclicEdges n then .error .cyclicEdges
  else .ok ()

/-- A concrete priors fixture with the hardcoded cardinalities 3, 4, 2, 2, 4
of `build_fraud_cpd` and point-mass prior values. -/
def pd0 : PriorsData where
  porting := ⟨["Recent", "Old", "None"], [1, 0, 0]⟩
  darkWeb := ⟨["High", "Medium", "Low", "None"], [1, 0, 0, 0]⟩
  stateMatch := ⟨["Yes", "No"], [1, 0]⟩
  proxyFlag := ⟨["Yes", "No"], [1, 0]⟩
  maid := ⟨["Near", "Mid", "Distant", "Unknown"], [1, 0, 0, 0]⟩

/-- A weights dict holding weight 1 for every key. -/
def W1 : String → Option ℝ := fun _ => some 1

/-- A weights dict with the `"Porting:Recent"` entry missing. -/
def Wmiss : String → Option ℝ := fun k =>
  if k = "Porting:Recent" then none else some 1

/-- A weights dict whose `Porting` weights are derived from raw marginal
probabilities 1/4 (state `Old`) and 3/4 (state `Recent`) against bias 1. -/
def W9 : String → Option ℝ := fun k =>
  if k = "Porting:Recent" then some (logitR (3 / 4) - 1)
  else if k = "Porting:Old" then some (logitR (1 / 4) - 1)
  else some 1

/-- An empty network fixture. -/
def net0 : NetworkModel := ⟨[], [], []⟩

/-- Full evidence fixture with `Porting` at its benign state `Old`. -/
def ev9 : Evidence :=
  [("Porting", "Old"), ("DarkWeb", "Low"), ("StateMatch", "Yes"),
    ("ProxyFlag", "No"), ("MAID_NightDistance", "Near")]

/-- Full evidence fixture with `Porting` moved to its suspicious state
`Recent`, all other variables fixed as in `ev9`. -/
def ev9' : Evidence :=
  [("Porting", "Recent"), ("DarkWeb", "Low"), ("StateMatch", "Yes"),
    ("ProxyFlag", "No"), ("MAID_NightDistance", "Near")]

end

section MapOptLemmas

variable {α β : Type} {f : α → Option β}

theorem mapOpt_length : ∀ {l : List α} {m : List β},
    mapOpt f l = some m → m.length = l.length := by
  intro l
  induction l with
  | nil => intro m h; simp [mapOpt] at h; simp [← h]
  | cons a l ih =>
    intro m h
    cases hfa : f a with
    | none => simp [mapOpt, hfa] at h
    | some b =>
      cases hm : mapOpt f l with
      | none => simp [mapOpt, hfa, hm] at h
      | some m' =>
        simp [mapOpt, hfa, hm] at h
        subst h
        simp [ih hm]

theorem mapOpt_getD : ∀ {l : List α} {m : List β}, mapOpt f l = some m →
    ∀ i : ℕ, i < l.length → ∀ (da : α) (db : β), f (l.getD i da) = some (m.getD i db) := by
  intro l
  induction l with
  | nil => intro m _ i hi; simp at hi
  | cons a l ih =>
    intro m h i hi da db
    cases hfa : f a with
    | none => simp [mapOpt, hfa] at h
    | some b =>
      cases hm : mapOpt f l with
      | none => simp [mapOpt, hfa, hm] at h
      | some m' =>
        simp [mapOpt, hfa, hm] at h
        subst h
        cases i with
        | zero => simpa using hfa
        | succ j =>
          simp only [List.getD_cons_succ]
          exact ih hm j (by simpa using hi) da db

theorem mapOpt_eq_none : ∀ {l : List α},
    mapOpt f l = none ↔ ∃ a ∈ l, f a = none := by
  intro l
  induction l with
  | nil => simp [mapOpt]
  | cons a l ih =>
    cases hfa : f a with
    | none => simp [mapOpt, hfa]
    | some b =>
      cases hm : mapOpt f l with
      | none =>
        constructor
        · intro _
          obtain ⟨x, hx, hfx⟩ := ih.mp hm
          exact ⟨x, List.mem_cons_of_mem _ hx, hfx⟩
        · intro _
          simp [mapOpt, hfa, hm]
      | some m' =>
        constructor
        · intro h
          exact absurd h (by simp [mapOpt, hfa, hm])
        · rintro ⟨x, hx, hfx⟩
          rcases List.mem_cons.mp hx with rfl | hx'
          · rw [hfa] at hfx; exact absurd hfx (by simp)
          · have h2 := ih.mpr ⟨x, hx', hfx⟩
            rw [hm] at h2
            exact absurd h2 (by simp)

theorem mapOpt_forall_isSome : ∀ {l : List α} {m : List β}, mapOpt f l = some m →
    ∀ a ∈ l, (f a).isSome := by
  intro l m h a ha
  cases hfa : f a with
  | some b => rfl
  | none =>
    have : mapOpt f l = none := mapOpt_eq_none.mpr ⟨a, ha, hfa⟩
    rw [h] at this
    exact absurd this (by simp)

theorem mapOpt_isSome : ∀ {l : List α}, (∀ a ∈ l, (f a).isSome) →
    ∃ m, mapOpt f l = some m := by
  intro l
  induction l with
  | nil => intro _; exact ⟨[], rfl⟩
  | cons a l ih =>
    intro h
    obtain ⟨m, hm⟩ := ih fun x hx => h x (List.mem_cons_of_mem _ hx)
    have hfa := h a (List.mem_cons_self a l)
    obtain ⟨b, hb⟩ := Option.isSome_iff_exists.mp hfa
    exact ⟨b :: m, by simp [mapOpt, hb, hm]⟩

theorem getD_map_of_lt (g : α → β) : ∀ (l : List α) (i : ℕ), i < l.length →
    ∀ (da : α) (db : β), (l.map g).getD i db = g (l.getD i da) := by
  intro l
  induction l with
  | nil => intro i hi; simp at hi
  | cons a l ih =>
    intro i hi da db
    cases i with
    | zero => simp
    | succ j => simpa using ih j (by simpa using hi) da db

end MapOptLemmas

/-- C1: for every parent-state tuple enumerated over the cartesian product
of the parent state lists (parents in declared order, last coordinate
fastest — the order of `allTuples`), the CPT built by `build_fraud_cpd`
assigns `p_positive = sigmoid(bias + Σ weights)` over the tuple's states and
`p_negative = 1 - p_positive`, so every row sums to 1.0 within 1e-9. -/
theorem build_fraud_cpd_rows (pd : PriorsData) (W : String → Option ℝ) (b : ℝ)
    (cpd : Cpd) (h : buildFraudCpd pd W b = .ok cpd)
    (i : ℕ) (hi : i < (allTuples pd).length) :
    ∃ s : ℝ, wsum W ((allTuples pd).getD i tupDflt) = some s ∧
      cpd.pYes.getD i 0 = sigmoid (b + s) ∧
      cpd.pNo.getD i 0 = 1 - sigmoid (b + s) ∧
      |cpd.pYes.getD i 0 + cpd.pNo.getD i 0 - 1| ≤ 1e-9 := by
  unfold buildFraudCpd at h
  cases hm : mapOpt (rowP W b) (allTuples pd) with
  | none => rw [hm] at h; exact absurd h (by simp)
  | some ys =>
    rw [hm] at h
    dsimp only at h
    by_cases hc : cardsOk pd = true
    · rw [if_pos hc] at h
      have hcpd : cpd = ⟨ys, ys.map (1 - ·)⟩ := by
        cases h; rfl
      have hlen : ys.length = (allTuples pd).length := mapOpt_length hm
      have hrow := mapOpt_getD hm i hi tupDflt 0
      unfold rowP at hrow
      cases hw : wsum W ((allTuples pd).getD i tupDflt) with
      | none => rw [hw] at hrow; exact absurd hrow (by simp)
      | some s =>
        rw [hw] at hrow
        have hys : ys.getD i 0 = sigmoid (b + s) := by
          simpa using hrow.symm
        refine ⟨s, rfl, ?_, ?_, ?_⟩
        · rw [hcpd]; exact hys
        · rw [hcpd]
          show (ys.map (1 - ·)).getD i 0 = 1 - sigmoid (b + s)
          rw [getD_map_of_lt (1 - ·) ys i (hlen ▸ hi) 0 0, hys]
        · rw [hcpd]
          show |ys.getD i 0 + (ys.map (1 - ·)).getD i 0 - 1| ≤ 1e-9
          rw [getD_map_of_lt (1 - ·) ys i (hlen ▸ hi) 0 0, hys]
          have hz : sigmoid (b + s) + (1 - sigmoid (b + s)) - 1 = 0 := by ring
          rw [hz, abs_zero]
          norm_num
    · rw [if_neg hc] at h
      exact absurd h (by simp)

set_option maxRecDepth 8192 in
/-- Witness for C1: at the concrete priors fixture `pd0`, the all-ones
weight dict and bias 0, the build succeeds and row 0 has the stated form. -/
theorem build_fraud_cpd_rows_witness :
    ∃ cpd : Cpd, buildFraudCpd pd0 W1 0 = .ok cpd ∧
      ∃ s : ℝ, wsum W1 ((allTuples pd0).getD 0 tupDflt) = some s ∧
        cpd.pYes.getD 0 0 = sigmoid (0 + s) ∧
        cpd.pNo.getD 0 0 = 1 - sigmoid (0 + s) ∧
        |cpd.pYes.getD 0 0 + cpd.pNo.getD 0 0 - 1| ≤ 1e-9 := by
  have hlen : (allTuples pd0).length = 192 := rfl
  refine ⟨_, rfl, build_fraud_cpd_rows pd0 W1 0 _ rfl 0 (by rw [hlen]; omega)⟩

section KeyLemmas

variable {W : String → Option ℝ} {t : Tup}

theorem wsum_none (W : String → Option ℝ) (t : Tup)
    (h : W ("Porting:" ++ t.1) = none ∨ W ("DarkWeb:" ++ t.2.1) = none ∨
      W ("StateMatch:" ++ t.2.2.1) = none ∨ W ("ProxyFlag:" ++ t.2.2.2.1) = none ∨
      W ("MAID_NightDistance:" ++ t.2.2.2.2) = none) :
    wsum W t = none := by
  unfold wsum
  cases h₁ : W ("Porting:" ++ t.1) <;>
    cases h₂ : W ("DarkWeb:" ++ t.2.1) <;>
      cases h₃ : W ("StateMatch:" ++ t.2.2.1) <;>
        cases h₄ : W ("ProxyFlag:" ++ t.2.2.2.1) <;>
          cases h₅ : W ("MAID_NightDistance:" ++ t.2.2.2.2) <;>
            simp_all

theorem wsum_some_parts (W : String → Option ℝ) (t : Tup)
    (h : (wsum W t).isSome) :
    (W ("Porting:" ++ t.1)).isSome ∧ (W ("DarkWeb:" ++ t.2.1)).isSome ∧
      (W ("StateMatch:" ++ t.2.2.1)).isSome ∧ (W ("ProxyFlag:" ++ t.2.2.2.1)).isSome ∧
      (W ("MAID_NightDistance:" ++ t.2.2.2.2)).isSome := by
  cases h₁ : W ("Porting:" ++ t.1) <;>
    cases h₂ : W ("DarkWeb:" ++ t.2.1) <;>
      cases h₃ : W ("StateMatch:" ++ t.2.2.1) <;>
        cases h₄ : W ("ProxyFlag:" ++ t.2.2.2.1) <;>
          cases h₅ : W ("MAID_NightDistance:" ++ t.2.2.2.2) <;>
            simp_all [wsum]

theorem mem_allTuples {pd : PriorsData} {p d s x m : String}
    (hp : p ∈ pd.porting.states) (hd : d ∈ pd.darkWeb.states)
    (hs : s ∈ pd.stateMatch.states) (hx : x ∈ pd.proxyFlag.states)
    (hm : m ∈ pd.maid.states) : ((p, d, s, x, m) : Tup) ∈ allTuples pd := by
  unfold allTuples
  exact List.mem_flatMap.mpr ⟨p, hp, List.mem_flatMap.mpr ⟨d, hd,
    List.mem_flatMap.mpr ⟨s, hs, List.mem_flatMap.mpr ⟨x, hx,
      List.mem_map.mpr ⟨m, hm, rfl⟩⟩⟩⟩⟩

theorem allTuples_mem_parts {pd : PriorsData} {t : Tup} (h : t ∈ allTuples pd) :
    t.1 ∈ pd.porting.states ∧ t.2.1 ∈ pd.darkWeb.states ∧
      t.2.2.1 ∈ pd.stateMatch.states ∧ t.2.2.2.1 ∈ pd.proxyFlag.states ∧
      t.2.2.2.2 ∈ pd.maid.states := by
  unfold allTuples at h
  simp only [List.mem_flatMap, List.mem_map] at h
  obtain ⟨p, hp, d, hd, s, hs, x, hx, m, hm, rfl⟩ := h
  exact ⟨hp, hd, hs, hx, hm⟩

theorem requiredKeys_porting {pd : PriorsData} {s : String}
    (h : s ∈ pd.porting.states) : ("Porting:" ++ s) ∈ requiredKeys pd := by
  unfold requiredKeys
  simp only [List.mem_append, List.mem_map]
  exact Or.inl (Or.inl (Or.inl (Or.inl ⟨s, h, rfl⟩)))

theorem requiredKeys_darkWeb {pd : PriorsData} {s : String}
    (h : s ∈ pd.darkWeb.states) : ("DarkWeb:" ++ s) ∈ requiredKeys pd := by
  unfold requiredKeys
  simp only [List.mem_append, List.mem_map]
  exact Or.inl (Or.inl (Or.inl (Or.inr ⟨s, h, rfl⟩)))

theorem requiredKeys_stateMatch {pd : PriorsData} {s : String}
    (h : s ∈ pd.stateMatch.states) : ("StateMatch:" ++ s) ∈ requiredKeys pd := by
  unfold requiredKeys
  simp only [List.mem_append, List.mem_map]
  exact Or.inl (Or.inl (Or.inr ⟨s, h, rfl⟩))

theorem requiredKeys_proxyFlag {pd : PriorsData} {s : String}
    (h : s ∈ pd.proxyFlag.states) : ("ProxyFlag:" ++ s) ∈ requiredKeys pd := by
  unfold requiredKeys
  simp only [List.mem_append, List.mem_map]
  exact Or.inl (Or.inr ⟨s, h, rfl⟩)

theorem requiredKeys_maid {pd : PriorsData} {s : String}
    (h : s ∈ pd.maid.states) : ("MAID_NightDistance:" ++ s) ∈ requiredKeys pd := by
  unfold requiredKeys
  simp only [List.mem_append, List.mem_map]
  exact Or.inr ⟨s, h, rfl⟩

theorem requiredKeys_cases {pd : PriorsData} {k : String} (hk : k ∈ requiredKeys pd) :
    (∃ s ∈ pd.porting.states, k = "Porting:" ++ s) ∨
      (∃ s ∈ pd.darkWeb.states, k = "DarkWeb:" ++ s) ∨
        (∃ s ∈ pd.stateMatch.states, k = "StateMatch:" ++ s) ∨
          (∃ s ∈ pd.proxyFlag.states, k = "ProxyFlag:" ++ s) ∨
            (∃ s ∈ pd.maid.states, k = "MAID_NightDistance:" ++ s) := by
  unfold requiredKeys at hk
  simp only [List.mem_append, List.mem_map] at hk
  rcases hk with ((((⟨s, hs, rfl⟩ | ⟨s, hs, rfl⟩) | ⟨s, hs, rfl⟩) | ⟨s, hs, rfl⟩) | ⟨s, hs, rfl⟩)
  · exact Or.inl ⟨s, hs, rfl⟩
  · exact Or.inr (Or.inl ⟨s, hs, rfl⟩)
  · exact Or.inr (Or.inr (Or.inl ⟨s, hs, rfl⟩))
  · exact Or.inr (Or.inr (Or.inr (Or.inl ⟨s, hs, rfl⟩)))
  · exact Or.inr (Or.inr (Or.inr (Or.inr ⟨s, hs, rfl⟩)))

end KeyLemmas

/-- C7: if any required `"feature:state"` key is absent from the weights
dict, `build_fraud_cpd` fails with Python's `KeyError` — a subclass of
`LookupError` — rather than default-filling the missing weight (the state
lists must be nonempty for the enumeration to reach any key at all). -/
theorem build_fraud_cpd_missing_key (pd : PriorsData) (W : String → Option ℝ) (b : ℝ)
    (hp : pd.porting.states ≠ []) (hd : pd.darkWeb.states ≠ [])
    (hs : pd.stateMatch.states ≠ []) (hx : pd.proxyFlag.states ≠ [])
    (hm : pd.maid.states ≠ [])
    (hmiss : ∃ k ∈ requiredKeys pd, W k = none) :
    buildFraudCpd pd W b = .error .keyError := by
  obtain ⟨k, hk, hknone⟩ := hmiss
  have hex : ∃ t ∈ allTuples pd, rowP W b t = none := by
    rcases requiredKeys_cases hk with ⟨s, hsmem, rfl⟩ | ⟨s, hsmem, rfl⟩ |
      ⟨s, hsmem, rfl⟩ | ⟨s, hsmem, rfl⟩ | ⟨s, hsmem, rfl⟩
    · refine ⟨(s, pd.darkWeb.states.head hd, pd.stateMatch.states.head hs,
        pd.proxyFlag.states.head hx, pd.maid.states.head hm),
        mem_allTuples hsmem (List.head_mem hd) (List.head_mem hs)
          (List.head_mem hx) (List.head_mem hm), ?_⟩
      unfold rowP
      rw [wsum_none _ _ (Or.inl hknone)]
      rfl
    · refine ⟨(pd.porting.states.head hp, s, pd.stateMatch.states.head hs,
        pd.proxyFlag.states.head hx, pd.maid.states.head hm),
        mem_allTuples (List.head_mem hp) hsmem (List.head_mem hs)
          (List.head_mem hx) (List.head_mem hm), ?_⟩
      unfold rowP
      rw [wsum_none _ _ (Or.inr (Or.inl hknone))]
      rfl
    · refine ⟨(pd.porting.states.head hp, pd.darkWeb.states.head hd, s,
        pd.proxyFlag.states.head hx, pd.maid.states.head hm),
        mem_allTuples (List.head_mem hp) (List.head_mem hd) hsmem
          (List.head_mem hx) (List.head_mem hm), ?_⟩
      unfold rowP
      rw [wsum_none _ _ (Or.inr (Or.inr (Or.inl hknone)))]
      rfl
    · refine ⟨(pd.porting.states.head hp, pd.darkWeb.states.head hd,
        pd.stateMatch.states.head hs, s, pd.maid.states.head hm),
        mem_allTuples (List.head_mem hp) (List.head_mem hd) (List.head_mem hs)
          hsmem (List.head_mem hm), ?_⟩
      unfold rowP
      rw [wsum_none _ _ (Or.inr (Or.inr (Or.inr (Or.inl hknone))))]
      rfl
    · refine ⟨(pd.porting.states.head hp, pd.darkWeb.states.head hd,
        pd.stateMatch.states.head hs, pd.proxyFlag.states.head hx, s),
        mem_allTuples (List.head_mem hp) (List.head_mem hd) (List.head_mem hs)
          (List.head_mem hx) hsmem, ?_⟩
      unfold rowP
      rw [wsum_none _ _ (Or.inr (Or.inr (Or.inr (Or.inr hknone))))]
      rfl
  obtain ⟨t, ht, hrow⟩ := hex
  unfold buildFraudCpd
  rw [mapOpt_eq_none.mpr ⟨t, ht, hrow⟩]

set_option maxRecDepth 8192 in
/-- Witness for C7: at the priors fixture `pd0` and the dict `Wmiss`
missing `"Porting:Recent"`, the build raises `KeyError`. -/
theorem build_fraud_cpd_missing_key_witness :
    buildFraudCpd pd0 Wmiss 0 = .error .keyError :=
  build_fraud_cpd_missing_key pd0 Wmiss 0 (by simp [pd0]) (by simp [pd0])
    (by simp [pd0]) (by simp [pd0]) (by simp [pd0])
    ⟨"Porting:Recent", by decide, rfl⟩

/-- C10: `build_fraud_cpd` has an undeclared precondition on parent
cardinalities: it hardcodes `evidence_card=[3, 4, 2, 2, 4]`, so a successful
build forces the priors source to declare exactly 3, 4, 2, 2 and 4 states
for Porting, DarkWeb, StateMatch, ProxyFlag and MAID_NightDistance, and a
weight entry to exist for every declared state; on any other priors input
construction fails instead of adapting (contrapositive of this theorem,
the result being an `Except` value). -/
theorem build_fraud_cpd_card_precondition (pd : PriorsData) (W : String → Option ℝ)
    (b : ℝ) (cpd : Cpd) (h : buildFraudCpd pd W b = .ok cpd) :
    pd.porting.states.length = 3 ∧ pd.darkWeb.states.length = 4 ∧
      pd.stateMatch.states.length = 2 ∧ pd.proxyFlag.states.length = 2 ∧
      pd.maid.states.length = 4 ∧ ∀ k ∈ requiredKeys pd, (W k).isSome := by
  unfold buildFraudCpd at h
  cases hm : mapOpt (rowP W b) (allTuples pd) with
  | none => rw [hm] at h; exact absurd h (by simp)
  | some ys =>
    rw [hm] at h
    dsimp only at h
    by_cases hc : cardsOk pd = true
    · have hcards : pd.porting.states.length = 3 ∧ pd.darkWeb.states.length = 4 ∧
        pd.stateMatch.states.length = 2 ∧ pd.proxyFlag.states.length = 2 ∧
        pd.maid.states.length = 4 := by
        simpa [cardsOk, Bool.and_eq_true, beq_iff_eq, and_assoc] using hc
      obtain ⟨h3, h4, h2a, h2b, h4m⟩ := hcards
      have hp : pd.porting.states ≠ [] := by
        intro hnil; rw [hnil] at h3; simp at h3
      have hd : pd.darkWeb.states ≠ [] := by
        intro hnil; rw [hnil] at h4; simp at h4
      have hsm : pd.stateMatch.states ≠ [] := by
        intro hnil; rw [hnil] at h2a; simp at h2a
      have hx : pd.proxyFlag.states ≠ [] := by
        intro hnil; rw [hnil] at h2b; simp at h2b
      have hmd : pd.maid.states ≠ [] := by
        intro hnil; rw [hnil] at h4m; simp at h4m
      refine ⟨h3, h4, h2a, h2b, h4m, ?_⟩
      intro k hk
      rcases requiredKeys_cases hk with ⟨s, hsmem, rfl⟩ | ⟨s, hsmem, rfl⟩ |
        ⟨s, hsmem, rfl⟩ | ⟨s, hsmem, rfl⟩ | ⟨s, hsmem, rfl⟩
      · have ht := mem_allTuples hsmem (List.head_mem hd) (List.head_mem hsm)
          (List.head_mem hx) (List.head_mem hmd)
        have hr := mapOpt_forall_isSome hm _ ht
        unfold rowP at hr
        simp only [Option.isSome_map'] at hr
        exact (wsum_some_parts _ _ hr).1
      · have ht := mem_allTuples (List.head_mem hp) hsmem (List.head_mem hsm)
          (List.head_mem hx) (List.head_mem hmd)
        have hr := mapOpt_forall_isSome hm _ ht
        unfold rowP at hr
        simp only [Option.isSome_map'] at hr
        exact (wsum_some_parts _ _ hr).2.1
      · have ht := mem_allTuples (List.head_mem hp) (List.head_mem hd) hsmem
          (List.head_mem hx) (List.head_mem hmd)
        have hr := mapOpt_forall_isSome hm _ ht
        unfold rowP at hr
        simp only [Option.isSome_map'] at hr
        exact (wsum_some_parts _ _ hr).2.2.1
      · have ht := mem_allTuples (List.head_mem hp) (List.head_mem hd)
          (List.head_mem hsm) hsmem (List.head_mem hmd)
        have hr := mapOpt_forall_isSome hm _ ht
        unfold rowP at hr
        simp only [Option.isSome_map'] at hr
        exact (wsum_some_parts _ _ hr).2.2.2.1
      · have ht := mem_allTuples (List.head_mem hp) (List.head_mem hd)
          (List.head_mem hsm) (List.head_mem hx) hsmem
        have hr := mapOpt_forall_isSome hm _ ht
        unfold rowP at hr
        simp only [Option.isSome_map'] at hr
        exact (wsum_some_parts _ _ hr).2.2.2.2
    · rw [if_neg hc] at h
      exact absurd h (by simp)

set_option maxRecDepth 8192 in
/-- Witness for C10: the fixture `pd0` declares exactly the hardcoded
cardinalities and the all-ones dict covers every key, so the successful
build at `pd0` discharges the hypothesis. -/
theorem build_fraud_cpd_card_precondition_witness :
    pd0.porting.states.length = 3 ∧ pd0.darkWeb.states.length = 4 ∧
      pd0.stateMatch.states.length = 2 ∧ pd0.proxyFlag.states.length = 2 ∧
      pd0.maid.states.length = 4 ∧ ∀ k ∈ requiredKeys pd0, (W1 k).isSome :=
  build_fraud_cpd_card_precondition pd0 W1 0 _ rfl

section WeightLemmas

theorem logitPy_ok (p : ℝ) (h0 : 0 < p) (h1 : p < 1) :
    logitPy p = .ok (logitR p) := by
  unfold logitPy logitR
  rw [if_neg (by linarith), if_neg (not_le.mpr (div_pos h0 (by linarith)))]

theorem logitPy_error (p : ℝ) (h : ¬(0 < p ∧ p < 1)) :
    ∃ e, logitPy p = .error e ∧
      (e = PyErr.valueError ∨ e = PyErr.zeroDivisionError) := by
  unfold logitPy
  by_cases hp1 : p = 1
  · exact ⟨.zeroDivisionError, by rw [if_pos hp1], Or.inr rfl⟩
  · push_neg at h
    refine ⟨.valueError, ?_, Or.inl rfl⟩
    rw [if_neg hp1, if_pos ?_]
    rcases le_or_lt p 0 with hle | hgt
    · rw [div_nonpos_iff]
      right
      constructor
      · exact hle
      · rcases le_or_lt p 1 with h1 | h1
        · linarith
        · linarith
    · have hge := h hgt
      have hlt : 1 < p := lt_of_le_of_ne hge (fun hh => hp1 hh.symm)
      exact le_of_lt (div_neg_of_pos_of_neg hgt (by linarith))

theorem logitPy_error_shape (p : ℝ) (e : PyErr) (h : logitPy p = .error e) :
    e = PyErr.valueError ∨ e = PyErr.zeroDivisionError := by
  unfold logitPy at h
  split_ifs at h with h1 h2
  · cases h; exact Or.inr rfl
  · cases h; exact Or.inl rfl

theorem derivePairs_ok (f : String) (b : ℝ) :
    ∀ sts : List (String × ℝ), (∀ sp ∈ sts, 0 < sp.2 ∧ sp.2 < 1) →
      derivePairs f b sts =
        .ok (sts.map fun sp => (f ++ ":" ++ sp.1, logitR sp.2 - b)) := by
  intro sts
  induction sts with
  | nil => intro _; rfl
  | cons sp rest ih =>
    intro h
    obtain ⟨h0, h1⟩ := h sp (List.mem_cons_self sp rest)
    have hrest := ih fun x hx => h x (List.mem_cons_of_mem _ hx)
    obtain ⟨st, pr⟩ := sp
    simp only [derivePairs, logitPy_ok pr h0 h1, hrest]
    rfl

theorem derivePairs_error (f : String) (b : ℝ) :
    ∀ sts : List (String × ℝ), (∃ sp ∈ sts, ¬(0 < sp.2 ∧ sp.2 < 1)) →
      ∃ e, derivePairs f b sts = .error e ∧
        (e = PyErr.valueError ∨ e = PyErr.zeroDivisionError) := by
  intro sts
  induction sts with
  | nil => rintro ⟨sp, hsp, _⟩; simp at hsp
  | cons hd rest ih =>
    rintro ⟨sp, hsp, hbad⟩
    by_cases hh : 0 < hd.2 ∧ hd.2 < 1
    · have hsp' : sp ∈ rest := by
        rcases List.mem_cons.mp hsp with rfl | h'
        · exact absurd hh hbad
        · exact h'
      obtain ⟨e, he, hcls⟩ := ih ⟨sp, hsp', hbad⟩
      refine ⟨e, ?_, hcls⟩
      obtain ⟨st, pr⟩ := hd
      simp only [derivePairs, logitPy_ok pr hh.1 hh.2, he]
      rfl
    · obtain ⟨e, he, hcls⟩ := logitPy_error hd.2 hh
      refine ⟨e, ?_, hcls⟩
      obtain ⟨st, pr⟩ := hd
      simp only [derivePairs, he]
      rfl

theorem deriveAll_ok (b : ℝ) :
    ∀ raw : List (String × List (String × ℝ)),
      (∀ pr ∈ raw, ∀ sp ∈ pr.2, 0 < sp.2 ∧ sp.2 < 1) →
      deriveAll b raw = .ok (deriveSpecList raw b) := by
  intro raw
  induction raw with
  | nil => intro _; rfl
  | cons hd rest ih =>
    intro h
    have hhd := h hd (List.mem_cons_self hd rest)
    have hrest := ih fun x hx => h x (List.mem_cons_of_mem _ hx)
    obtain ⟨f, sts⟩ := hd
    simp only [deriveAll, derivePairs_ok f b sts hhd, hrest, deriveSpecList]
    rfl

theorem deriveAll_error (b : ℝ) :
    ∀ raw : List (String × List (String × ℝ)),
      (∃ pr ∈ raw, ∃ sp ∈ pr.2, ¬(0 < sp.2 ∧ sp.2 < 1)) →
      ∃ e, deriveAll b raw = .error e ∧
        (e = PyErr.valueError ∨ e = PyErr.zeroDivisionError) := by
  intro raw
  induction raw with
  | nil => rintro ⟨pr, hpr, _⟩; simp at hpr
  | cons hd rest ih =>
    rintro ⟨pr, hpr, sp, hsp, hbad⟩
    by_cases hh : ∀ x ∈ hd.2, 0 < x.2 ∧ x.2 < 1
    · have hpr' : pr ∈ rest := by
        rcases List.mem_cons.mp hpr with rfl | h'
        · exact absurd (hh sp hsp) hbad
        · exact h'
      obtain ⟨e, he, hcls⟩ := ih ⟨pr, hpr', sp, hsp, hbad⟩
      refine ⟨e, ?_, hcls⟩
      obtain ⟨f, sts⟩ := hd
      simp only [deriveAll, derivePairs_ok f b sts hh, he]
      rfl
    · push_neg at hh
      obtain ⟨x, hx, hxbad⟩ := hh
      have hxbad' : ¬(0 < x.2 ∧ x.2 < 1) := by
        rintro ⟨ha, hb⟩
        exact absurd (hxbad ha) (by linarith)
      obtain ⟨e, he, hcls⟩ := derivePairs_error hd.1 b hd.2 ⟨x, hx, hxbad'⟩
      refine ⟨e, ?_, hcls⟩
      obtain ⟨f, sts⟩ := hd
      simp only [deriveAll, he]
      rfl

end WeightLemmas

/-- C3: weight derivation fails whenever any input probability — a raw
per-state marginal or the base rate — is not strictly between 0 and 1.  The
raised error is Python's `ValueError` ("math domain error") or, at the
`p = 1` boundary, `ZeroDivisionError` — the role the spec's taxonomy names
`DomainError`; no such input is logged-and-scored or yields a log-odds
value. -/
theorem train_weights_domain_error (raw : List (String × List (String × ℝ)))
    (r : ℝ)
    (hbad : ¬(0 < r ∧ r < 1) ∨ ∃ pr ∈ raw, ∃ sp ∈ pr.2, ¬(0 < sp.2 ∧ sp.2 < 1)) :
    ∃ e, trainAndSaveWeights raw r = .error e ∧
      (e = PyErr.valueError ∨ e = PyErr.zeroDivisionError) := by
  by_cases hr : 0 < r ∧ r < 1
  · have hbad' : ∃ pr ∈ raw, ∃ sp ∈ pr.2, ¬(0 < sp.2 ∧ sp.2 < 1) := by
      rcases hbad with h | h
      · exact absurd hr h
      · exact h
    obtain ⟨e, he, hcls⟩ := deriveAll_error (logitR r) raw hbad'
    refine ⟨e, ?_, hcls⟩
    have h1 : trainAndSaveWeights raw r =
        (do
          let ws ← deriveAll (logitR r) raw
          pure ((logitR r), ws)) := by
      unfold trainAndSaveWeights
      rw [logitPy_ok r hr.1 hr.2]
      rfl
    rw [h1, he]
    rfl
  · obtain ⟨e, he, hcls⟩ := logitPy_error r hr
    refine ⟨e, ?_, hcls⟩
    simp only [trainAndSaveWeights, he]
    rfl

/-- Witness for C3: the out-of-range base rate 2 makes derivation fail. -/
theorem train_weights_domain_error_witness :
    ∃ e, trainAndSaveWeights [] (2 : ℝ) = .error e ∧
      (e = PyErr.valueError ∨ e = PyErr.zeroDivisionError) :=
  train_weights_domain_error [] 2 (Or.inl (by norm_num))

section LogBounds

theorem abs18 : |(1/8 : ℝ)| = 1/8 := by rw [abs_of_pos]; norm_num

theorem abs14 : |(1/4 : ℝ)| = 1/4 := by rw [abs_of_pos]; norm_num

theorem log78_bounds :
    -(0.1335320 : ℝ) < Real.log (1 - 1/8) ∧ Real.log (1 - 1/8) < -(0.1335307 : ℝ) := by
  have h := Real.abs_log_sub_add_sum_range_le (x := 1/8) (by rw [abs18]; norm_num) 6
  rw [abs18] at h
  rw [abs_le] at h
  obtain ⟨h1, h2⟩ := h
  simp only [Finset.sum_range_succ, Finset.sum_range_zero] at h1 h2
  norm_num at h1 h2
  constructor <;> linarith

theorem log34_bounds :
    -(0.2876867 : ℝ) < Real.log (1 - 1/4) ∧ Real.log (1 - 1/4) < -(0.2876764 : ℝ) := by
  have h := Real.abs_log_sub_add_sum_range_le (x := 1/4) (by rw [abs14]; norm_num) 8
  rw [abs14] at h
  rw [abs_le] at h
  obtain ⟨h1, h2⟩ := h
  simp only [Finset.sum_range_succ, Finset.sum_range_zero] at h1 h2
  norm_num at h1 h2
  constructor <;> linarith

theorem log7_bounds : (1.9459095 : ℝ) < Real.log 7 ∧ Real.log 7 < 1.9459109 := by
  have h78 := log78_bounds
  have h7 : Real.log 7 = 3 * Real.log 2 + Real.log (1 - 1/8) := by
    rw [show (1 : ℝ) - 1/8 = 7/8 by norm_num]
    rw [show (7 : ℝ) = 2^(3:ℕ) * (7/8) by norm_num]
    rw [Real.log_mul (by norm_num) (by norm_num), Real.log_pow]
    norm_num
  rw [h7]
  constructor <;>
    linarith [Real.log_two_gt_d9, Real.log_two_lt_d9, h78.1, h78.2]

theorem log3_bounds : (1.0986076 : ℝ) < Real.log 3 ∧ Real.log 3 < 1.0986180 := by
  have h34 := log34_bounds
  have h3 : Real.log 3 = 2 * Real.log 2 + Real.log (1 - 1/4) := by
    rw [show (1 : ℝ) - 1/4 = 3/4 by norm_num]
    rw [show (3 : ℝ) = 2^(2:ℕ) * (3/4) by norm_num]
    rw [Real.log_mul (by norm_num) (by norm_num), Real.log_pow]
    norm_num
  rw [h3]
  constructor <;>
    linarith [Real.log_two_gt_d9, Real.log_two_lt_d9, h34.1, h34.2]

theorem logitR_base : logitR (1/50) = -Real.log 49 := by
  unfold logitR
  rw [show (1/50 : ℝ) / (1 - 1/50) = ((49 : ℝ))⁻¹ by norm_num, Real.log_inv]

theorem logitR_quarter : logitR (1/4) = -Real.log 3 := by
  unfold logitR
  rw [show (1/4 : ℝ) / (1 - 1/4) = ((3 : ℝ))⁻¹ by norm_num, Real.log_inv]

theorem log49_eq : Real.log 49 = 2 * Real.log 7 := by
  rw [show (49 : ℝ) = 7^(2:ℕ) by norm_num, Real.log_pow]
  norm_num

theorem bias_approx : |logitR (1/50) - (-3.8918)| < 1e-3 := by
  rw [logitR_base, log49_eq]
  have h7 := log7_bounds
  rw [abs_lt]
  constructor <;> linarith [h7.1, h7.2]

theorem weight_approx : |(logitR (1/4) - logitR (1/50)) - 2.7932| < 1e-3 := by
  rw [logitR_base, logitR_quarter, log49_eq]
  have h7 := log7_bounds
  have h3 := log3_bounds
  rw [abs_lt]
  constructor <;> linarith [h7.1, h7.2, h3.1, h3.2]

end LogBounds

/-- C5: weight derivation computes `bias = logit(baseRate) = ln(r/(1-r))`
and, for each `(feature, state)` raw-probability entry,
`weights["feature:state"] = logit(raw) - bias`; in particular with base rate
`0.02 = 1/50` the bias is within `1e-3` of `-3.8918`, and with raw
probability `0.25 = 1/4` for `Porting:Recent` that weight is within `1e-3`
of `2.7932`. -/
theorem train_weights_formula (raw : List (String × List (String × ℝ))) (r : ℝ)
    (hr0 : 0 < r) (hr1 : r < 1)
    (hraw : ∀ pr ∈ raw, ∀ sp ∈ pr.2, 0 < sp.2 ∧ sp.2 < 1) :
    trainAndSaveWeights raw r = .ok (logitR r, deriveSpecList raw (logitR r)) ∧
      |logitR (1/50) - (-3.8918)| < 1e-3 ∧
      |(logitR (1/4) - logitR (1/50)) - 2.7932| < 1e-3 := by
  refine ⟨?_, bias_approx, weight_approx⟩
  have h1 : trainAndSaveWeights raw r =
      (do
        let ws ← deriveAll (logitR r) raw
        pure ((logitR r), ws)) := by
    unfold trainAndSaveWeights
    rw [logitPy_ok r hr0 hr1]
    rfl
  rw [h1, deriveAll_ok (logitR r) raw hraw]
  rfl

/-- Witness for C5: the spec's concrete scenario, base rate `1/50` (0.02)
and raw probability `1/4` (0.25) for `Porting:Recent`. -/
theorem train_weights_formula_witness :
    trainAndSaveWeights [("Porting", [("Recent", (1/4 : ℝ))])] (1/50) =
        .ok (logitR (1/50),
          deriveSpecList [("Porting", [("Recent", (1/4 : ℝ))])] (logitR (1/50))) ∧
      |logitR (1/50) - (-3.8918)| < 1e-3 ∧
      |(logitR (1/4) - logitR (1/50)) - 2.7932| < 1e-3 :=
  train_weights_formula [("Porting", [("Recent", (1/4 : ℝ))])] (1/50)
    (by norm_num) (by norm_num)
    (by
      rintro pr hpr sp hsp
      simp only [List.mem_singleton] at hpr
      subst hpr
      simp only [List.mem_singleton] at hsp
      subst hsp
      norm_num)

/-- C6 (refuting theorem): `sigmoid` as implemented is not stable at
logits of large magnitude.  At input `-1000` the subexpression
`math.exp(1000)` exceeds every finite double (`exp 1000 > 2.7^1000 >
2^1024`), so Python raises `OverflowError` instead of returning a
probability saturating toward 0. -/
theorem sigmoidPy_overflow : sigmoidPy (-1000) = .error PyErr.overflowError := by
  have h27 : (2.7 : ℝ) ≤ Real.exp 1 := by
    have := Real.exp_one_gt_d9
    linarith
  have hpow : ((2:ℝ) ^ (1024 : ℕ)) < (2.7 : ℝ) ^ (1000 : ℕ) := by norm_num
  have hexp : floatMax < Real.exp (1000 : ℝ) := by
    have he : Real.exp (1000 : ℝ) = Real.exp 1 ^ (1000 : ℕ) := by
      rw [← Real.exp_nat_mul]
      norm_num
    rw [he]
    calc floatMax = (2:ℝ) ^ (1024:ℕ) := rfl
      _ < (2.7:ℝ) ^ (1000:ℕ) := hpow
      _ ≤ Real.exp 1 ^ (1000:ℕ) := pow_le_pow_left₀ (by norm_num) h27 1000
  unfold sigmoidPy expPy
  rw [show (-(-1000 : ℝ)) = (1000 : ℝ) by norm_num]
  rw [if_pos hexp]

section ScoreLemmas

theorem lookupEv_mem : ∀ {ev : Evidence} {n v : String},
    lookupEv ev n = some v → (n, v) ∈ ev := by
  intro ev
  induction ev with
  | nil => intro n v h; simp [lookupEv] at h
  | cons p rest ih =>
    intro n v h
    obtain ⟨k, w⟩ := p
    unfold lookupEv at h
    by_cases hk : k = n
    · rw [if_pos hk] at h
      cases h
      subst hk
      exact List.mem_cons_self _ _
    · rw [if_neg hk] at h
      exact List.mem_cons_of_mem _ (ih h)

theorem statesOf_porting (pd : PriorsData) :
    statesOf pd "Porting" = pd.porting.states := by
  unfold statesOf
  rw [if_pos rfl]

theorem statesOf_darkWeb (pd : PriorsData) :
    statesOf pd "DarkWeb" = pd.darkWeb.states := by
  unfold statesOf
  rw [if_neg (by decide), if_pos rfl]

theorem statesOf_stateMatch (pd : PriorsData) :
    statesOf pd "StateMatch" = pd.stateMatch.states := by
  unfold statesOf
  rw [if_neg (by decide), if_neg (by decide), if_pos rfl]

theorem statesOf_proxyFlag (pd : PriorsData) :
    statesOf pd "ProxyFlag" = pd.proxyFlag.states := by
  unfold statesOf
  rw [if_neg (by decide), if_neg (by decide), if_neg (by decide), if_pos rfl]

theorem statesOf_maid (pd : PriorsData) :
    statesOf pd "MAID_NightDistance" = pd.maid.states := by
  unfold statesOf
  rw [if_neg (by decide), if_neg (by decide), if_neg (by decide),
    if_neg (by decide), if_pos rfl]

theorem branch_state_mem {pd : PriorsData} {ev : Evidence}
    (hvalid : evidenceValidP pd ev) (name : String) (ps : PriorSpec)
    (hcoh : statesOf pd name = ps.states) :
    ∀ pr ∈ branch ev name ps, pr.2 ∈ ps.states := by
  intro pr hpr
  unfold branch at hpr
  cases hl : lookupEv ev name with
  | some s =>
    rw [hl] at hpr
    simp only [List.mem_singleton] at hpr
    subst hpr
    have hm := lookupEv_mem hl
    have hs := (hvalid _ hm).2
    rw [hcoh] at hs
    exact hs
  | none =>
    rw [hl] at hpr
    obtain ⟨a, b⟩ := pr
    exact (List.of_mem_zip hpr).2

theorem configs_mem_states {pd : PriorsData} {ev : Evidence} {pt : ℝ × Tup}
    (hmem : pt ∈ configs pd ev) (hvalid : evidenceValidP pd ev) :
    pt.2.1 ∈ pd.porting.states ∧ pt.2.2.1 ∈ pd.darkWeb.states ∧
      pt.2.2.2.1 ∈ pd.stateMatch.states ∧ pt.2.2.2.2.1 ∈ pd.proxyFlag.states ∧
      pt.2.2.2.2.2 ∈ pd.maid.states := by
  unfold configs at hmem
  simp only [List.mem_flatMap, List.mem_map] at hmem
  obtain ⟨a, ha, b, hb, c, hc, d, hd, e, he, rfl⟩ := hmem
  exact ⟨branch_state_mem hvalid _ _ (statesOf_porting pd) a ha,
    branch_state_mem hvalid _ _ (statesOf_darkWeb pd) b hb,
    branch_state_mem hvalid _ _ (statesOf_stateMatch pd) c hc,
    branch_state_mem hvalid _ _ (statesOf_proxyFlag pd) d hd,
    branch_state_mem hvalid _ _ (statesOf_maid pd) e he⟩

end ScoreLemmas

/-- C2: for every network and every valid evidence mapping over the five
evidence variables (including the empty mapping) whose weight keys all
exist, `score_case` returns a distribution covering both target states,
`{"Fraud": p, "Legit": 1 - p}`, summing to 1.0 within 1e-6. -/
theorem score_case_normalized (pd : PriorsData) (W : String → Option ℝ) (b : ℝ)
    (ev : Evidence) (hvalid : evidenceValidP pd ev)
    (hW : ∀ k ∈ requiredKeys pd, (W k).isSome) :
    ∃ p : ℝ, scoreCase pd W b ev = .ok (p, 1 - p) ∧ |p + (1 - p) - 1| ≤ 1e-6 := by
  have hsome : ∀ pt ∈ configs pd ev,
      ((rowP W b pt.2).map fun q => (pt.1, q)).isSome := by
    intro pt hpt
    obtain ⟨h1, h2, h3, h4, h5⟩ := configs_mem_states hpt hvalid
    have k1 := hW _ (requiredKeys_porting h1)
    have k2 := hW _ (requiredKeys_darkWeb h2)
    have k3 := hW _ (requiredKeys_stateMatch h3)
    have k4 := hW _ (requiredKeys_proxyFlag h4)
    have k5 := hW _ (requiredKeys_maid h5)
    obtain ⟨w₁, hw₁⟩ := Option.isSome_iff_exists.mp k1
    obtain ⟨w₂, hw₂⟩ := Option.isSome_iff_exists.mp k2
    obtain ⟨w₃, hw₃⟩ := Option.isSome_iff_exists.mp k3
    obtain ⟨w₄, hw₄⟩ := Option.isSome_iff_exists.mp k4
    obtain ⟨w₅, hw₅⟩ := Option.isSome_iff_exists.mp k5
    have hws : (wsum W pt.2).isSome := by
      unfold wsum
      rw [hw₁, hw₂, hw₃, hw₄, hw₅]
      rfl
    simp only [Option.isSome_map']
    unfold rowP
    simp only [Option.isSome_map']
    exact hws
  obtain ⟨rows, hrows⟩ := mapOpt_isSome hsome
  refine ⟨(rows.map fun r => r.1 * r.2).sum / (rows.map Prod.fst).sum, ?_, ?_⟩
  · unfold scoreCase
    rw [if_pos hvalid, hrows]
  · have hz : (rows.map fun r => r.1 * r.2).sum / (rows.map Prod.fst).sum +
        (1 - (rows.map fun r => r.1 * r.2).sum / (rows.map Prod.fst).sum) - 1 = 0 := by
      ring
    rw [hz, abs_zero]
    norm_num

/-- Witness for C2: the empty evidence mapping (the prior-only marginal) on
the fixture network. -/
theorem score_case_normalized_witness :
    ∃ p : ℝ, scoreCase pd0 W1 0 [] = .ok (p, 1 - p) ∧ |p + (1 - p) - 1| ≤ 1e-6 :=
  score_case_normalized pd0 W1 0 [] (by intro p hp; simp at hp) (fun k _ => rfl)

/-- C4: evidence naming a variable not in the network, or giving a variable
a value outside its declared state list, makes the query fail with
`InvalidEvidenceError`; it is never ignored, clamped or defaulted. -/
theorem score_case_invalid_evidence (pd : PriorsData) (W : String → Option ℝ)
    (b : ℝ) (ev : Evidence)
    (h : ∃ p ∈ ev, p.1 ∉ varNames ∨ p.2 ∉ statesOf pd p.1) :
    scoreCase pd W b ev = .error .invalidEvidenceError := by
  have hneg : ¬ evidenceValidP pd ev := by
    intro hvalid
    obtain ⟨p, hp, hbad⟩ := h
    obtain ⟨h1, h2⟩ := hvalid p hp
    rcases hbad with hb | hb
    · exact hb h1
    · exact hb h2
  unfold scoreCase
  rw [if_neg hneg]

/-- Witness for C4: evidence naming the unknown variable `Bogus` is
rejected on the fixture network. -/
theorem score_case_invalid_evidence_witness :
    scoreCase pd0 W1 0 [("Bogus", "X")] = .error PyErr.invalidEvidenceError :=
  score_case_invalid_evidence pd0 W1 0 [("Bogus", "X")]
    ⟨("Bogus", "X"), List.mem_singleton.mpr rfl, Or.inl (by decide)⟩

section MonotoneLemmas

theorem sigmoid_mono {x y : ℝ} (h : x ≤ y) : sigmoid x ≤ sigmoid y := by
  unfold sigmoid
  have h2 : (0:ℝ) < 1 + Real.exp (-y) := by positivity
  apply one_div_le_one_div_of_le h2
  have h3 := Real.exp_le_exp.mpr (neg_le_neg h)
  linarith

theorem logitR_mono {p q : ℝ} (hp : 0 < p) (hpq : p ≤ q) (hq : q < 1) :
    logitR p ≤ logitR q := by
  unfold logitR
  have h1p : 0 < 1 - p := by linarith
  have h1q : 0 < 1 - q := by linarith
  apply (Real.log_le_log_iff (div_pos hp h1p) (div_pos (by linarith) h1q)).mpr
  rw [div_le_div_iff₀ h1p h1q]
  nlinarith

theorem scoreCase_full (pd : PriorsData) (W : String → Option ℝ) (b : ℝ)
    (ev : Evidence) (t1 t2 t3 t4 t5 : String) (w₁ w₂ w₃ w₄ w₅ : ℝ)
    (hvalid : evidenceValidP pd ev)
    (h1 : lookupEv ev "Porting" = some t1)
    (h2 : lookupEv ev "DarkWeb" = some t2)
    (h3 : lookupEv ev "StateMatch" = some t3)
    (h4 : lookupEv ev "ProxyFlag" = some t4)
    (h5 : lookupEv ev "MAID_NightDistance" = some t5)
    (hw₁ : W ("Porting:" ++ t1) = some w₁)
    (hw₂ : W ("DarkWeb:" ++ t2) = some w₂)
    (hw₃ : W ("StateMatch:" ++ t3) = some w₃)
    (hw₄ : W ("ProxyFlag:" ++ t4) = some w₄)
    (hw₅ : W ("MAID_NightDistance:" ++ t5) = some w₅) :
    scoreCase pd W b ev = .ok (sigmoid (b + (w₁ + w₂ + w₃ + w₄ + w₅)),
      1 - sigmoid (b + (w₁ + w₂ + w₃ + w₄ + w₅))) := by
  unfold scoreCase
  rw [if_pos hvalid]
  have hcfg : configs pd ev = [(((((1:ℝ) * 1) * 1) * 1) * 1, (t1, t2, t3, t4, t5))] := by
    unfold configs branch
    rw [h1, h2, h3, h4, h5]
    rfl
  have hrow : rowP W b (t1, t2, t3, t4, t5) =
      some (sigmoid (b + (w₁ + w₂ + w₃ + w₄ + w₅))) := by
    unfold rowP wsum
    rw [hw₁, hw₂, hw₃, hw₄, hw₅]
    rfl
  rw [hcfg]
  have hmap : mapOpt (fun pt => (rowP W b pt.2).map fun p => (pt.1, p))
      [(((((1:ℝ) * 1) * 1) * 1) * 1, (t1, t2, t3, t4, t5))] =
      some [(((((1:ℝ) * 1) * 1) * 1) * 1,
        sigmoid (b + (w₁ + w₂ + w₃ + w₄ + w₅)))] := by
    simp [mapOpt, hrow]
  rw [hmap]
  simp only
  norm_num

end MonotoneLemmas

/-- C9: with weights derived from raw probabilities that do not decrease
from a variable's benign state to its suspicious state (each coordinate's
weight is either unchanged — the variable is held fixed — or moves from
`logit(p) - bias` to `logit(q) - bias` with `p ≤ q` in `(0,1)`), moving the
evidence between two full assignments can only raise the queried fraud
probability. -/
theorem score_case_monotone (pd : PriorsData) (W : String → Option ℝ) (b : ℝ)
    (ev ev' : Evidence) (t1 t2 t3 t4 t5 s1 s2 s3 s4 s5 : String)
    (u₁ u₂ u₃ u₄ u₅ v₁ v₂ v₃ v₄ v₅ : ℝ)
    (hvalid : evidenceValidP pd ev) (hvalid' : evidenceValidP pd ev')
    (h1 : lookupEv ev "Porting" = some t1)
    (h2 : lookupEv ev "DarkWeb" = some t2)
    (h3 : lookupEv ev "StateMatch" = some t3)
    (h4 : lookupEv ev "ProxyFlag" = some t4)
    (h5 : lookupEv ev "MAID_NightDistance" = some t5)
    (h1' : lookupEv ev' "Porting" = some s1)
    (h2' : lookupEv ev' "DarkWeb" = some s2)
    (h3' : lookupEv ev' "StateMatch" = some s3)
    (h4' : lookupEv ev' "ProxyFlag" = some s4)
    (h5' : lookupEv ev' "MAID_NightDistance" = some s5)
    (hw₁ : W ("Porting:" ++ t1) = some u₁)
    (hw₂ : W ("DarkWeb:" ++ t2) = some u₂)
    (hw₃ : W ("StateMatch:" ++ t3) = some u₃)
    (hw₄ : W ("ProxyFlag:" ++ t4) = some u₄)
    (hw₅ : W ("MAID_NightDistance:" ++ t5) = some u₅)
    (hw₁' : W ("Porting:" ++ s1) = some v₁)
    (hw₂' : W ("DarkWeb:" ++ s2) = some v₂)
    (hw₃' : W ("StateMatch:" ++ s3) = some v₃)
    (hw₄' : W ("ProxyFlag:" ++ s4) = some v₄)
    (hw₅' : W ("MAID_NightDistance:" ++ s5) = some v₅)
    (hm₁ : u₁ = v₁ ∨ ∃ p q c, 0 < p ∧ p ≤ q ∧ q < 1 ∧
      u₁ = logitR p - c ∧ v₁ = logitR q - c)
    (hm₂ : u₂ = v₂ ∨ ∃ p q c, 0 < p ∧ p ≤ q ∧ q < 1 ∧
      u₂ = logitR p - c ∧ v₂ = logitR q - c)
    (hm₃ : u₃ = v₃ ∨ ∃ p q c, 0 < p ∧ p ≤ q ∧ q < 1 ∧
      u₃ = logitR p - c ∧ v₃ = logitR q - c)
    (hm₄ : u₄ = v₄ ∨ ∃ p q c, 0 < p ∧ p ≤ q ∧ q < 1 ∧
      u₄ = logitR p - c ∧ v₄ = logitR q - c)
    (hm₅ : u₅ = v₅ ∨ ∃ p q c, 0 < p ∧ p ≤ q ∧ q < 1 ∧
      u₅ = logitR p - c ∧ v₅ = logitR q - c) :
    ∃ pF pF' : ℝ, scoreCase pd W b ev = .ok (pF, 1 - pF) ∧
      scoreCase pd W b ev' = .ok (pF', 1 - pF') ∧ pF ≤ pF' := by
  have hle : ∀ u v : ℝ, (u = v ∨ ∃ p q c, 0 < p ∧ p ≤ q ∧ q < 1 ∧
      u = logitR p - c ∧ v = logitR q - c) → u ≤ v := by
    rintro u v (rfl | ⟨p, q, c, hp, hpq, hq, rfl, rfl⟩)
    · exact le_refl _
    · have := logitR_mono hp hpq hq
      linarith
  refine ⟨sigmoid (b + (u₁ + u₂ + u₃ + u₄ + u₅)),
    sigmoid (b + (v₁ + v₂ + v₃ + v₄ + v₅)),
    scoreCase_full pd W b ev t1 t2 t3 t4 t5 u₁ u₂ u₃ u₄ u₅ hvalid
      h1 h2 h3 h4 h5 hw₁ hw₂ hw₃ hw₄ hw₅,
    scoreCase_full pd W b ev' s1 s2 s3 s4 s5 v₁ v₂ v₃ v₄ v₅ hvalid'
      h1' h2' h3' h4' h5' hw₁' hw₂' hw₃' hw₄' hw₅', ?_⟩
  apply sigmoid_mono
  have l₁ := hle _ _ hm₁
  have l₂ := hle _ _ hm₂
  have l₃ := hle _ _ hm₃
  have l₄ := hle _ _ hm₄
  have l₅ := hle _ _ hm₅
  linarith

/-- Witness for C9: on the fixture network with `W9` — whose `Porting`
weights come from raw probabilities 1/4 (`Old`) and 3/4 (`Recent`) —
moving `Porting` from `Old` to `Recent` with all other evidence fixed does
not decrease the fraud probability. -/
theorem score_case_monotone_witness :
    ∃ pF pF' : ℝ, scoreCase pd0 W9 0 ev9 = .ok (pF, 1 - pF) ∧
      scoreCase pd0 W9 0 ev9' = .ok (pF', 1 - pF') ∧ pF ≤ pF' :=
  score_case_monotone pd0 W9 0 ev9 ev9' "Old" "Low" "Yes" "No" "Near"
    "Recent" "Low" "Yes" "No" "Near"
    (logitR (1/4) - 1) 1 1 1 1 (logitR (3/4) - 1) 1 1 1 1
    (by decide) (by decide)
    rfl rfl rfl rfl rfl rfl rfl rfl rfl rfl
    rfl rfl rfl rfl rfl rfl rfl rfl rfl rfl
    (Or.inr ⟨1/4, 3/4, 1, by norm_num, by norm_num, by norm_num, rfl, rfl⟩)
    (Or.inl rfl) (Or.inl rfl) (Or.inl rfl) (Or.inl rfl)

/-- C8: validation of the assembled network checks exactly one CPT per
variable, CPT parent lists against declared edges, per-column normalization
within tolerance, and acyclicity of the edge set; it succeeds exactly when
all four checks hold, and each failure reports the specific check that
failed (the `ModelFault` constructor), never coercing the model. -/
theorem validate_checks (n : NetworkModel) :
    (validate n = .ok () ↔
      uniqueCpd n ∧ parentsMatch n ∧ normalizedCpts n ∧ acyclicEdges n) ∧
    (validate n = .error .duplicateOrMissingCpd → ¬ uniqueCpd n) ∧
    (validate n = .error .parentMismatch → ¬ parentsMatch n) ∧
    (validate n = .error .unnormalizedCpt → ¬ normalizedCpts n) ∧
    (validate n = .error .cyclicEdges → ¬ acyclicEdges n) := by
  unfold validate
  split_ifs with hu hp hn ha <;> simp_all

/-- Witness for C8: the theorem instantiated at the empty network
fixture. -/
theorem validate_checks_witness :
    (validate net0 = .ok () ↔
      uniqueCpd net0 ∧ parentsMatch net0 ∧ normalizedCpts net0 ∧ acyclicEdges net0) ∧
    (validate net0 = .error .duplicateOrMissingCpd → ¬ uniqueCpd net0) ∧
    (validate net0 = .error .parentMismatch → ¬ parentsMatch net0) ∧
    (validate net0 = .error .unnormalizedCpt → ¬ normalizedCpts net0) ∧
    (validate net0 = .error .cyclicEdges → ¬ acyclicEdges net0) :=
  validate_checks net0

end FreqApp
